import Mathlib

/-!
Shallow embedding of the Number Lease and Delivery Engine of this
repository (files bot.py, app.py and the unnamed panel script), together
with theorems checking the natural-language specification against it.

Conventions of the embedding:
* Python dictionaries with insertion order are modelled as association
  lists with unique keys; in-place mutation of a record found by a scan
  becomes an update of the first list element satisfying the same
  predicate the scan used.
* Timestamps (time.time and datetime.now values) are modelled as Int;
  the comparisons of the source translate verbatim.
* The keys of StateManager.assignments are str(user_id) in the source;
  since str is injective on ints and every write uses str(user_id), the
  dictionary is modelled keyed by Int directly.  The users dictionary of
  app.py is kept keyed by String because DataStore._release_expired
  computes a key from an Optional value (str(None) = "None"), which the
  model must be able to express.
* Optional fields translate to Option; Python truthiness tests on them
  translate to the explicit checks isSome / nonzero where the source
  value can be 0 or None.
-/

namespace OtpLease

/-- An element of StateManager.numbers in bot.py: one pool phone number
with its lease state (fields as created by add_numbers / mutated by the
StateManager operations). -/
structure NumRec where
  number : String
  country : Option String := none
  status : String := "available"
  assigned_to : Option Int := none
  assigned_at : Option Int := none
  last_otp_at : Option Int := none
deriving Repr, DecidableEq

/-- A value of StateManager.assignments in bot.py: the lease-index entry
of one requester. -/
structure Assignment where
  number : String
  assigned_at : Int
  last_otp : Option String := none
  last_otp_at : Option Int := none
  reassign_count : Nat := 0
deriving Repr, DecidableEq

/-- An element of StateManager.otp_history in bot.py. -/
structure OtpEvent where
  number : String
  otp : String
  service : String
  panel : String
  timestamp : Int
  assigned_user : Option Int
deriving Repr, DecidableEq

/-- The mutable state of StateManager in bot.py (numbers, assignments,
otp_history); the asyncio lock and the persistence calls are not part of
the state transition being modelled. -/
structure BotState where
  numbers : List NumRec
  assignments : List (Int × Assignment)
  otp_history : List OtpEvent
deriving Repr, DecidableEq

/-- Lookup in an association list modelling a Python dict (first, hence
unique, binding of the key). -/
def dGet {κ α : Type} [BEq κ] (d : List (κ × α)) (k : κ) : Option α :=
  (d.find? (fun p => p.1 == k)).map (fun p => p.2)

/-- Python dict assignment d[k] = v: overwrite the binding in place when
the key exists, otherwise append it. -/
def dSet {κ α : Type} [BEq κ] (d : List (κ × α)) (k : κ) (v : α) : List (κ × α) :=
  if d.any (fun p => p.1 == k) then d.map (fun p => if p.1 == k then (k, v) else p)
  else d ++ [(k, v)]

/-- Python dict deletion del d[k] (or d.pop(k, None)). -/
def dDel {κ α : Type} [BEq κ] (d : List (κ × α)) (k : κ) : List (κ × α) :=
  d.filter (fun p => !(p.1 == k))

/-- Replace the first element satisfying p by its image under f;
models in-place mutation of the object a linear scan found. -/
def updateFirst {α : Type} (p : α → Bool) (f : α → α) : List α → List α
  | [] => []
  | a :: as => if p a then f a :: as else a :: updateFirst p f as

/-- Python str.lstrip applied with the plus character: drop every
leading plus sign. -/
def lstripPlus (s : String) : String :=
  String.mk (s.data.dropWhile (fun c => c == '+'))

/-- The comparison StateManager._find_number performs on each element:
the stored number equals the query, or equals the query with exactly one
leading plus restored. -/
def numMatches (n : NumRec) (number : String) : Bool :=
  n.number == number || n.number == "+" ++ lstripPlus number

/-- StateManager._find_number of bot.py: first record whose number
matches the query. -/
def findNumber (numbers : List NumRec) (number : String) : Option NumRec :=
  numbers.find? (fun n => numMatches n number)

/-- In-place mutation of the record _find_number located. -/
def updateNumber (number : String) (f : NumRec → NumRec) (numbers : List NumRec) : List NumRec :=
  updateFirst (fun n => numMatches n number) f numbers

/-- The fresh-assignment path of StateManager.assign_number: take the
first available record, mark it assigned to the caller, and write the
lease-index entry (reassign_count carried over from any earlier entry). -/
def freshAssign (uid now : Int) (σ : BotState) : Option Assignment × BotState :=
  match σ.numbers.find? (fun n => n.status == "available") with
  | none => (none, σ)
  | some avail =>
    let rc := ((dGet σ.assignments uid).map (fun a => a.reassign_count)).getD 0
    let a : Assignment :=
      { number := avail.number, assigned_at := now, last_otp := none,
        last_otp_at := none, reassign_count := rc }
    let numbers' := updateFirst (fun n => n.status == "available")
      (fun n => { n with
        status := "assigned",
        assigned_to := some uid,
        assigned_at := some now,
        last_otp_at := none }) σ.numbers
    (some a, { σ with numbers := numbers', assignments := dSet σ.assignments uid a })

/-- StateManager.assign_number of bot.py: return the current lease
unchanged when its record is still assigned and no OTP was recorded,
otherwise assign the first available record. -/
def assign_number (uid now : Int) (σ : BotState) : Option Assignment × BotState :=
  match dGet σ.assignments uid with
  | some current =>
    match findNumber σ.numbers current.number with
    | some num =>
      if num.status == "assigned" && current.last_otp == none then (some current, σ)
      else freshAssign uid now σ
    | none => freshAssign uid now σ
  | none => freshAssign uid now σ

/-- StateManager.change_number of bot.py: release the caller's current
record (to available, or to used when an OTP was recorded), then assign
the first available record, incrementing reassign_count; changeRelease
is the release applied to the caller's current record. -/
def changeRelease (current : Assignment) (n : NumRec) : NumRec :=
  { n with
    status := if current.last_otp == none then "available" else "used",
    assigned_to := none,
    assigned_at := none }

/-- The release phase of StateManager.change_number: when the caller
has a lease-index entry, its record (when found) is released in place. -/
def changeReleased (uid : Int) (σ : BotState) : BotState :=
  match dGet σ.assignments uid with
  | some current =>
    { σ with numbers := updateNumber current.number (changeRelease current) σ.numbers }
  | none => σ

/-- StateManager.change_number of bot.py, as described above. -/
def change_number (uid now : Int) (σ : BotState) : Option Assignment × BotState :=
  let σr := changeReleased uid σ
  match σr.numbers.find? (fun n => n.status == "available") with
  | none => (none, σr)
  | some avail =>
    let rc := ((dGet σr.assignments uid).map (fun a => a.reassign_count)).getD 0 + 1
    let a : Assignment :=
      { number := avail.number, assigned_at := now, last_otp := none,
        last_otp_at := none, reassign_count := rc }
    let numbers' := updateFirst (fun n => n.status == "available")
      (fun n => { n with
        status := "assigned",
        assigned_to := some uid,
        assigned_at := some now,
        last_otp_at := none }) σr.numbers
    (some a, { σr with numbers := numbers', assignments := dSet σr.assignments uid a })

/-- StateManager.release_number of bot.py: force the record back to
available (or used), clear its holder fields, and delete every
lease-index entry naming that number. -/
def release_number (number : String) (markUsed : Bool) (σ : BotState) : Bool × BotState :=
  match findNumber σ.numbers number with
  | none => (false, σ)
  | some _ =>
    let st := if markUsed then "used" else "available"
    let numbers' := updateNumber number
      (fun n => { n with status := st, assigned_to := none, assigned_at := none }) σ.numbers
    let assignments' := σ.assignments.filter (fun p => !(p.2.number == number))
    (true, { σ with numbers := numbers', assignments := assignments' })

/-- StateManager.block_number of bot.py. -/
def block_number (number : String) (σ : BotState) : Bool × BotState :=
  match findNumber σ.numbers number with
  | none => (false, σ)
  | some _ =>
    let numbers' := updateNumber number
      (fun n => { n with status := "blocked", assigned_to := none, assigned_at := none }) σ.numbers
    let assignments' := σ.assignments.filter (fun p => !(p.2.number == number))
    (true, { σ with numbers := numbers', assignments := assignments' })

/-- The body of the loop of StateManager.release_expired for one record:
an assigned record with a timestamp past the timeout and no OTP is
released and its lease-index entries are deleted. -/
def relExpStep (now ttl : Int) (n : NumRec) (asg : List (Int × Assignment)) :
    NumRec × Option String × List (Int × Assignment) :=
  if n.status == "assigned" then
    match n.assigned_at with
    | some t =>
      if now - t ≥ ttl && n.last_otp_at == none then
        ({ n with status := "available", assigned_to := none, assigned_at := none },
         some n.number, asg.filter (fun p => !(p.2.number == n.number)))
      else (n, none, asg)
    | none => (n, none, asg)
  else (n, none, asg)

/-- The loop of StateManager.release_expired over the whole pool,
threading the assignments dictionary through the per-record step. -/
def relExpGo (now ttl : Int) :
    List NumRec → List (Int × Assignment) →
    List NumRec × List String × List (Int × Assignment)
  | [], asg => ([], [], asg)
  | n :: ns, asg =>
    let r := relExpStep now ttl n asg
    let rest := relExpGo now ttl ns r.2.2
    (r.1 :: rest.1,
     (match r.2.1 with | some v => v :: rest.2.1 | none => rest.2.1),
     rest.2.2)

/-- StateManager.release_expired of bot.py: reclaim every assigned
record past the timeout that has no OTP recorded, returning the list of
reclaimed values. -/
def release_expired (now ttl : Int) (σ : BotState) : List String × BotState :=
  let r := relExpGo now ttl σ.numbers σ.assignments
  (r.2.1, { σ with numbers := r.1, assignments := r.2.2 })

/-- The final value of the assigned_user variable produced by the
assignments loop of StateManager.track_otp: the key of the last
lease-index entry naming the number, when one exists (the loop
overwrites the variable at each matching entry). -/
def lastHolder : List (Int × Assignment) → String → Option Int
  | [], _ => none
  | p :: ps, number =>
    match lastHolder ps number with
    | some u => some u
    | none => if p.2.number == number then some p.1 else none

/-- StateManager.track_otp of bot.py: stamp the record with the OTP
time, mark it used when keep_used_locked is set, record the OTP on every
lease-index entry naming the number, append a history event, and return
the holder (the record's holder when assigned and nonzero, overridden by
the key of the last matching lease-index entry). -/
def track_otp (keepUsedLocked : Bool) (number otp service panel : String) (now : Int)
    (σ : BotState) : Option Int × BotState :=
  let found := findNumber σ.numbers number
  let userFromRec : Option Int :=
    match found with
    | some ne =>
      if ne.status == "assigned" then
        match ne.assigned_to with
        | some u => if u == 0 then none else some u
        | none => none
      else none
    | none => none
  let numbers' :=
    match found with
    | some _ =>
      updateNumber number
        (fun n =>
          let n1 := { n with last_otp_at := some now }
          if keepUsedLocked then { n1 with status := "used" } else n1) σ.numbers
    | none => σ.numbers
  let assignments' := σ.assignments.map
    (fun p => if p.2.number == number then
        (p.1, { p.2 with last_otp := some otp, last_otp_at := some now }) else p)
  let assigned_user :=
    match lastHolder σ.assignments number with
    | some u => some u
    | none => userFromRec
  let ev : OtpEvent :=
    { number := number, otp := otp, service := service, panel := panel,
      timestamp := now, assigned_user := assigned_user }
  (assigned_user,
   { numbers := numbers', assignments := assignments',
     otp_history := σ.otp_history ++ [ev] })

/-- One element of a numbers payload of app.py (NumberEntry fields, as
stored in DataStore.data under lists/name/numbers); otp_history entries
hold (otp, timestamp, via). -/
structure AppEntry where
  value : String
  status : String := "available"
  assigned_to : Option Int := none
  assigned_at : Option Int := none
  last_otp : Option String := none
  otp_history : List (String × Int × String) := []
deriving Repr, DecidableEq

/-- A value of the users dictionary of app.py DataStore. -/
structure UserAsg where
  list : String
  number : String
  assigned_at : Int
  username : Option String := none
deriving Repr, DecidableEq

/-- DataStore.data of app.py: the lists dictionary (name to numbers
payload) and the users dictionary keyed by str(user_id). -/
structure AppState where
  lists : List (String × List AppEntry)
  users : List (String × UserAsg)
deriving Repr, DecidableEq

/-- Python str applied to an Optional int (str(None) is the literal
string None). -/
def pyStr : Option Int → String
  | none => "None"
  | some i => toString i

/-- The body of the nested loop of DataStore._release_expired for one
entry: an assigned entry with a truthy timestamp strictly past the TTL
is released; the users lookup happens after assigned_to was already
cleared, so the key looked up is str(None). -/
def appRelEntry (now ttl : Int) (e : AppEntry) (users : List (String × UserAsg)) :
    AppEntry × List (String × UserAsg) :=
  if e.status == "assigned" then
    match e.assigned_at with
    | some t =>
      if !(t == 0) && now - t > ttl then
        let e' := { e with status := "available", assigned_to := none, assigned_at := none }
        let key := pyStr e'.assigned_to
        match dGet users key with
        | some ue => if ue.number == e'.value then (e', dDel users key) else (e', users)
        | none => (e', users)
      else (e, users)
    | none => (e, users)
  else (e, users)

/-- The inner loop of DataStore._release_expired over one numbers list. -/
def appRelList (now ttl : Int) : List AppEntry → List (String × UserAsg) →
    List AppEntry × List (String × UserAsg)
  | [], users => ([], users)
  | e :: es, users =>
    let r := appRelEntry now ttl e users
    let rest := appRelList now ttl es r.2
    (r.1 :: rest.1, rest.2)

/-- The outer loop of DataStore._release_expired over all lists. -/
def appRelLists (now ttl : Int) : List (String × List AppEntry) → List (String × UserAsg) →
    List (String × List AppEntry) × List (String × UserAsg)
  | [], users => ([], users)
  | l :: rest, users =>
    let r := appRelList now ttl l.2 users
    let rr := appRelLists now ttl rest r.2
    ((l.1, r.1) :: rr.1, rr.2)

/-- DataStore._release_expired of app.py. -/
def app_release_expired (now ttl : Int) (σ : AppState) : AppState :=
  let r := appRelLists now ttl σ.lists σ.users
  { lists := r.1, users := r.2 }

/-- DataStore._normalize of app.py: strip every non-digit character. -/
def normalizeApp (number : String) : String :=
  String.mk (number.data.filter (fun c => c.isDigit))

/-- The scan of DataStore.assign_by_number over _iter_entries: first
entry whose value equals the query, together with its list name. -/
def findInLists : List (String × List AppEntry) → String → Option (String × AppEntry)
  | [], _ => none
  | l :: rest, v =>
    match l.2.find? (fun e => e.value == v) with
    | some e => some (l.1, e)
    | none => findInLists rest v

/-- DataStore.deliver_otp of app.py: normalize the number, locate its
entry, mark it used (appending to its history), write it back, pop the
holder's users entry when the holder id is truthy, and return the
holder. -/
def deliver_otp (number otp source : String) (now : Int) (σ : AppState) :
    Option Int × AppState :=
  let v := normalizeApp number
  match findInLists σ.lists v with
  | none => (none, σ)
  | some le =>
    let e := le.2
    let e' := { e with
      status := "used",
      last_otp := some otp,
      otp_history := e.otp_history ++ [(otp, now, source)] }
    let lists' := updateFirst (fun p => p.1 == le.1)
      (fun p => (p.1, updateFirst (fun x => x.value == e'.value) (fun _ => e') p.2)) σ.lists
    let uid := e.assigned_to
    let users' :=
      match uid with
      | some u => if u == 0 then σ.users else dDel σ.users (toString u)
      | none => σ.users
    (uid, { lists := lists', users := users' })

/-- Atoms of the fixed regular expressions of extract_otp: an element of
the digit class or a literal hyphen. -/
inductive PTok where
  | digit : PTok
  | dash : PTok
deriving Repr, DecidableEq

/-- Matching of one pattern atom against one character. -/
def tokMatch : PTok → Char → Bool
  | PTok.digit, c => c.isDigit
  | PTok.dash, c => c == '-'

/-- Membership in the word class of the regular expressions (ASCII
letters, digits and underscore; the inputs handled are ASCII). -/
def isWordChar (c : Char) : Bool := c.isAlpha || c.isDigit || c == '_'

/-- Consecutive atoms of a pattern matching the characters of s from
position i on. -/
def toksAt : List PTok → List Char → Nat → Bool
  | [], _, _ => true
  | t :: ts, s, i =>
    match s[i]? with
    | some c => tokMatch t c && toksAt ts s (i + 1)
    | none => false

/-- Absence of a word character at position i (out of range counts as
absent). -/
def noWordAt (s : List Char) (i : Nat) : Bool :=
  match s[i]? with
  | some c => !(isWordChar c)
  | none => true

/-- A word-bounded match of the pattern at position i, the boundary
semantics specialized to patterns beginning and ending with word
characters, as all four patterns of extract_otp do. -/
def matchAt (toks : List PTok) (s : List Char) (i : Nat) : Bool :=
  (i == 0 || noWordAt s (i - 1)) && toksAt toks s i && noWordAt s (i + toks.length)

/-- The left-to-right scan of re.search for a fixed-length pattern:
first index from i on, within the given fuel, satisfying p. -/
def searchFromIdx (p : Nat → Bool) : Nat → Nat → Option Nat
  | _, 0 => none
  | i, Nat.succ fuel => if p i then some i else searchFromIdx p (i + 1) fuel

/-- Position of the leftmost word-bounded match of the pattern. -/
def searchPat (toks : List PTok) (s : List Char) : Option Nat :=
  searchFromIdx (fun i => matchAt toks s i) 0 (s.length + 1)

/-- Position of the leftmost unbounded match of the pattern (the
patterns of the panel script's extract_otp carry no boundary anchors). -/
def specSearch (toks : List PTok) (s : List Char) : Option Nat :=
  searchFromIdx (fun i => toksAt toks s i) 0 (s.length + 1)

/-- The six-digit pattern of extract_otp. -/
def pat6 : List PTok := List.replicate 6 PTok.digit

/-- The four-digit pattern of extract_otp. -/
def pat4 : List PTok := List.replicate 4 PTok.digit

/-- The hyphenated three-three pattern of extract_otp. -/
def pat33 : List PTok :=
  List.replicate 3 PTok.digit ++ [PTok.dash] ++ List.replicate 3 PTok.digit

/-- The eight-digit pattern of bot.py extract_otp. -/
def pat8 : List PTok := List.replicate 8 PTok.digit

/-- Python str.replace removing every hyphen from a matched group. -/
def stripDash (l : List Char) : String := String.mk (l.filter (fun c => !(c == '-')))

/-- The matched group of a fixed-length pattern found at position i. -/
def groupAt (s : List Char) (i len : Nat) : List Char := (s.drop i).take len

/-- The pattern loop of bot.py extract_otp: first pattern with a match
wins, and the hyphen is stripped from the group. -/
def extractGo (s : List Char) : List (List PTok) → Option String
  | [] => none
  | p :: ps =>
    match searchPat p s with
    | some i => some (stripDash (groupAt s i p.length))
    | none => extractGo s ps

/-- extract_otp of bot.py: the word-bounded patterns of six digits, four
digits, three-hyphen-three, then eight digits, first match winning, with
hyphens removed from the returned group. -/
def extract_otp (message : String) : Option String :=
  extractGo message.data [pat6, pat4, pat33, pat8]

/-- The pattern loop of the panel script's extract_otp: unbounded
patterns, group returned as matched (no hyphen removal). -/
def panelExtractGo (s : List Char) : List (List PTok) → Option String
  | [] => none
  | p :: ps =>
    match specSearch p s with
    | some i => some (String.mk (groupAt s i p.length))
    | none => panelExtractGo s ps

/-- extract_otp of the unnamed panel script: the unbounded patterns of
six digits, four digits, then three-hyphen-three, first match winning,
the group returned verbatim. -/
def panel_extract_otp (message : String) : Option String :=
  panelExtractGo message.data [pat6, pat4, pat33]

/-- Modelled from the spec: the extraction contract as the claim words
it, applied to the three listed patterns read as plain contiguous-digit
patterns, first match winning, the hyphen stripped from the returned
code, absent when none match. -/
def spec_extract (message : String) : Option String :=
  let s := message.data
  match specSearch pat6 s with
  | some i => some (stripDash (groupAt s i pat6.length))
  | none =>
    match specSearch pat4 s with
    | some i => some (stripDash (groupAt s i pat4.length))
    | none =>
      match specSearch pat33 s with
      | some i => some (stripDash (groupAt s i pat33.length))
      | none => none

/-- Outcome of reading and parsing persisted JSON: a parsed value or a
parse failure (json.JSONDecodeError, modelled as a constructor since a
raised exception is an outcome, not a value). -/
inductive ParseOutcome (α : Type) where
  | ok : α → ParseOutcome α
  | malformed : ParseOutcome α
deriving Repr, DecidableEq

/-- load_json of bot.py, the file test and json.load abstracted into a
Bool and a ParseOutcome: a missing file writes and returns the default,
and a parse failure is caught and returns the default. -/
def load_json {α : Type} (fileExists : Bool) (parsed : ParseOutcome α) (dflt : α) : α :=
  if fileExists then
    match parsed with
    | ParseOutcome.ok v => v
    | ParseOutcome.malformed => dflt
  else dflt

/-- DataStore._load of app.py: when the file exists, the result of
json.load replaces the store with no exception handling, so a parse
failure propagates out of the constructor; otherwise the initial store
is kept (and saved). -/
def DataStore_load (fileExists : Bool) (parsed : ParseOutcome AppState) (initial : AppState) :
    ParseOutcome AppState :=
  if fileExists then parsed else ParseOutcome.ok initial

/-- The four top-level collections of the panel script's JSON data
store, each key possibly missing in the parsed object; the element
types are abstract. -/
structure PDataPartial (α : Type) where
  users : Option (List (String × α)) := none
  number_pools : Option (List (String × α)) := none
  assignments : Option (List α) := none
  otp_deliveries : Option (List α) := none
deriving Repr, DecidableEq

/-- The panel script's data store after ensure_data_defaults. -/
structure PData (α : Type) where
  users : List (String × α)
  number_pools : List (String × α)
  assignments : List α
  otp_deliveries : List α
deriving Repr, DecidableEq

/-- ensure_data_defaults of the panel script: fill each missing key
with its empty default. -/
def ensure_data_defaults {α : Type} (d : PDataPartial α) : PData α :=
  { users := d.users.getD [],
    number_pools := d.number_pools.getD [],
    assignments := d.assignments.getD [],
    otp_deliveries := d.otp_deliveries.getD [] }

/-- load_data_store of the panel script: a missing file yields the
defaults of the empty object, a parse failure is caught and yields the
defaults of the empty object, and parsed data has its missing keys
filled. -/
def load_data_store {α : Type} (fileExists : Bool) (parsed : ParseOutcome (PDataPartial α)) :
    PData α :=
  if fileExists then
    match parsed with
    | ParseOutcome.ok d => ensure_data_defaults d
    | ParseOutcome.malformed => ensure_data_defaults {}
  else ensure_data_defaults {}

/-- The record invariant of section 3 of the specification: holder and
timestamp are both present or both absent, and both are absent unless
the status is assigned. -/
def recInv (n : NumRec) : Bool :=
  (n.assigned_to.isSome == n.assigned_at.isSome) &&
  (n.status == "assigned" || (n.assigned_to == none && n.assigned_at == none))

/-- The record invariant over a whole pool. -/
def poolInv (σ : BotState) : Prop := ∀ n ∈ σ.numbers, recInv n = true

instance decPoolInv (σ : BotState) : Decidable (poolInv σ) :=
  inferInstanceAs (Decidable (∀ n ∈ σ.numbers, recInv n = true))

/-- A record assigned to requester 1, used by the concrete scenarios. -/
def c3_rec : NumRec :=
  { number := "15550000001", status := "assigned", assigned_to := some 1, assigned_at := some 5 }

/-- The lease-index entry matching c3_rec. -/
def c3_asg : Assignment := { number := "15550000001", assigned_at := 5 }

/-- A store where requester 1 holds c3_rec and nothing else exists. -/
def c3_store : BotState :=
  { numbers := [c3_rec], assignments := [(1, c3_asg)], otp_history := [] }

/-- The pool of the assignment-sequencing scenario: A then B, both
available, nobody holding anything. -/
def c4_store : BotState :=
  { numbers := [{ number := "A" }, { number := "B" }], assignments := [], otp_history := [] }

/-- The record A assigned to requester 1 with no OTP yet. -/
def c5_recA : NumRec :=
  { number := "A", status := "assigned", assigned_to := some 1, assigned_at := some 5 }

/-- A store where requester 1 holds A while B is still available. -/
def c5_store : BotState :=
  { numbers := [c5_recA, { number := "B" }],
    assignments := [(1, { number := "A", assigned_at := 5 })], otp_history := [] }

/-- The record A of c10_store, already carrying an OTP timestamp. -/
def c10_rec : NumRec :=
  { number := "A", status := "assigned", assigned_to := some 1, assigned_at := some 5,
    last_otp_at := some 6 }

/-- The lease-index entry of c10_store, already carrying an OTP. -/
def c10_asg : Assignment := { number := "A", assigned_at := 5, last_otp := some "1234" }

/-- A one-number store whose only record is held by requester 1 and has
an OTP recorded, so a change request finds nothing else available. -/
def c10_store : BotState :=
  { numbers := [c10_rec], assignments := [(1, c10_asg)], otp_history := [] }

/-- The app.py store of the reclamation failing input: user 7 holds
number 77 assigned at time 100. -/
def c1_store : AppState :=
  { lists := [("L", [{ value := "77", status := "assigned",
                       assigned_to := some 7, assigned_at := some 100 }])],
    users := [("7", { list := "L", number := "77", assigned_at := 100 })] }

/-! Lemmas about the list, dictionary and scan helpers of the
embedding. -/

theorem updateFirst_of_none {α : Type} (p : α → Bool) (f : α → α) (l : List α)
    (h : ∀ a ∈ l, p a = false) : updateFirst p f l = l := by
  induction l with
  | nil => rfl
  | cons a as ih =>
    simp only [updateFirst, h a (List.mem_cons_self a as), Bool.false_eq_true, if_false]
    rw [ih (fun b hb => h b (List.mem_cons_of_mem a hb))]

theorem mem_updateFirst {α : Type} {p : α → Bool} {f : α → α} {l : List α} {x : α}
    (hx : x ∈ updateFirst p f l) : x ∈ l ∨ ∃ a, a ∈ l ∧ p a = true ∧ x = f a := by
  induction l with
  | nil => simp [updateFirst] at hx
  | cons a as ih =>
    cases hpa : p a with
    | true =>
      simp only [updateFirst, hpa, if_true] at hx
      rcases List.mem_cons.mp hx with h1 | h2
      · exact Or.inr ⟨a, List.mem_cons_self a as, hpa, h1⟩
      · exact Or.inl (List.mem_cons_of_mem a h2)
    | false =>
      simp only [updateFirst, hpa, Bool.false_eq_true, if_false] at hx
      rcases List.mem_cons.mp hx with h1 | h2
      · exact Or.inl (h1 ▸ List.mem_cons_self a as)
      · rcases ih h2 with h3 | ⟨b, hb, hpb, hxb⟩
        · exact Or.inl (List.mem_cons_of_mem a h3)
        · exact Or.inr ⟨b, List.mem_cons_of_mem a hb, hpb, hxb⟩

theorem updateFirst_pred {α : Type} {Q : α → Prop} {p : α → Bool} {f : α → α} {l : List α}
    (h : ∀ a ∈ l, Q a) (hf : ∀ a ∈ l, Q (f a)) : ∀ x ∈ updateFirst p f l, Q x := by
  intro x hx
  rcases mem_updateFirst hx with h1 | ⟨a, ha, _, hxa⟩
  · exact h x h1
  · exact hxa ▸ hf a ha

theorem find?_updateFirst {α : Type} (p : α → Bool) (f : α → α)
    (hf : ∀ a, p (f a) = p a) (l : List α) :
    (updateFirst p f l).find? p = (l.find? p).map f := by
  induction l with
  | nil => rfl
  | cons a as ih =>
    cases hpa : p a with
    | true =>
      have hfa : p (f a) = true := by rw [hf a, hpa]
      simp only [updateFirst, hpa, if_true,
        List.find?_cons_of_pos _ hfa, List.find?_cons_of_pos _ hpa, Option.map_some']
    | false =>
      have hfa : ¬ p a = true := by simp [hpa]
      simp only [updateFirst, hpa, Bool.false_eq_true, if_false,
        List.find?_cons_of_neg _ hfa, ih]

theorem find?_of_first_getElem {α : Type} (p : α → Bool) :
    ∀ (l : List α) (k : Nat) (hk : k < l.length),
      p (l.get ⟨k, hk⟩) = true →
      (∀ j (hj : j < l.length), j < k → p (l.get ⟨j, hj⟩) = false) →
      l.find? p = some (l.get ⟨k, hk⟩) := by
  intro l
  induction l with
  | nil => intro k hk; exact absurd hk (Nat.not_lt_zero k)
  | cons a as ih =>
    intro k hk hp hf
    cases k with
    | zero => exact List.find?_cons_of_pos _ hp
    | succ k' =>
      have h0 : p a = false := hf 0 (Nat.succ_pos _) (Nat.succ_pos _)
      have ha : ¬ p a = true := by simp [h0]
      rw [List.find?_cons_of_neg _ ha]
      exact ih k' (Nat.lt_of_succ_lt_succ hk) hp
        (fun j hj hjk => hf (j + 1) (Nat.succ_lt_succ hj) (Nat.succ_lt_succ hjk))

theorem map_eq_self {α : Type} {g : α → α} {l : List α} (h : ∀ a ∈ l, g a = a) :
    l.map g = l := by
  induction l with
  | nil => rfl
  | cons a as ih =>
    simp only [List.map_cons, h a (List.mem_cons_self a as)]
    rw [ih (fun b hb => h b (List.mem_cons_of_mem a hb))]

theorem lastHolder_map {g : Int × Assignment → Int × Assignment}
    (h1 : ∀ p, (g p).1 = p.1) (h2 : ∀ p, (g p).2.number = p.2.number)
    (l : List (Int × Assignment)) (num : String) :
    lastHolder (l.map g) num = lastHolder l num := by
  induction l with
  | nil => rfl
  | cons p ps ih => simp only [List.map_cons, lastHolder, ih, h1 p, h2 p]

theorem lastHolder_eq_none {l : List (Int × Assignment)} {num : String}
    (h : ∀ p ∈ l, (p.2.number == num) = false) : lastHolder l num = none := by
  induction l with
  | nil => rfl
  | cons p ps ih =>
    simp only [lastHolder, ih (fun q hq => h q (List.mem_cons_of_mem p hq)),
      h p (List.mem_cons_self p ps), Bool.false_eq_true, if_false]

theorem numMatches_map {f : NumRec → NumRec} (hf : ∀ n, (f n).number = n.number)
    (n : NumRec) (num : String) : numMatches (f n) num = numMatches n num := by
  simp [numMatches, hf n]

theorem findNumber_updateNumber {num : String} {f : NumRec → NumRec}
    (hf : ∀ n, (f n).number = n.number) (l : List NumRec) :
    findNumber (updateNumber num f l) num = (findNumber l num).map f :=
  find?_updateFirst _ _ (fun a => numMatches_map hf a num) l

theorem searchFromIdx_eq_some {p : Nat → Bool} :
    ∀ (fuel i r : Nat), searchFromIdx p i fuel = some r →
      p r = true ∧ i ≤ r ∧ ∀ j, i ≤ j → j < r → p j = false := by
  intro fuel
  induction fuel with
  | zero => intro i r h; exact absurd h (by simp [searchFromIdx])
  | succ fuel ih =>
    intro i r h
    cases hpi : p i with
    | true =>
      simp only [searchFromIdx, hpi, if_true, Option.some.injEq] at h
      subst h
      exact ⟨hpi, Nat.le_refl i, fun j h1 h2 => absurd (Nat.lt_of_le_of_lt h1 h2) (Nat.lt_irrefl i)⟩
    | false =>
      simp only [searchFromIdx, hpi, Bool.false_eq_true, if_false] at h
      rcases ih (i + 1) r h with ⟨hr, hir, hbefore⟩
      refine ⟨hr, by omega, fun j h1 h2 => ?_⟩
      rcases Nat.eq_or_lt_of_le h1 with h3 | h3
      · rw [← h3]; exact hpi
      · exact hbefore j h3 h2

theorem searchFromIdx_eq_none {p : Nat → Bool} :
    ∀ (fuel i : Nat), searchFromIdx p i fuel = none ↔
      ∀ j, i ≤ j → j < i + fuel → p j = false := by
  intro fuel
  induction fuel with
  | zero =>
    intro i
    constructor
    · intro _ j h1 h2
      exact absurd h2 (by omega)
    · intro _
      rfl
  | succ fuel ih =>
    intro i
    cases hpi : p i with
    | true =>
      simp only [searchFromIdx, hpi, if_true]
      constructor
      · intro h; exact absurd h (by simp)
      · intro h; exact absurd (h i (Nat.le_refl i) (by omega)) (by simp [hpi])
    | false =>
      simp only [searchFromIdx, hpi, Bool.false_eq_true, if_false, ih (i + 1)]
      constructor
      · intro h j h1 h2
        rcases Nat.eq_or_lt_of_le h1 with h3 | h3
        · rw [← h3]; exact hpi
        · exact h j h3 (by omega)
      · intro h j h1 h2
        exact h j (by omega) (by omega)

theorem searchFromIdx_of_first {p : Nat → Bool} :
    ∀ (fuel i r : Nat), i ≤ r → r < i + fuel → p r = true →
      (∀ j, i ≤ j → j < r → p j = false) → searchFromIdx p i fuel = some r := by
  intro fuel
  induction fuel with
  | zero => intro i r h1 h2; omega
  | succ fuel ih =>
    intro i r h1 h2 hr hf
    rcases Nat.eq_or_lt_of_le h1 with h3 | h3
    · subst h3
      simp only [searchFromIdx, hr, if_true]
    · have hpi : p i = false := hf i (Nat.le_refl i) h3
      simp only [searchFromIdx, hpi, Bool.false_eq_true, if_false]
      exact ih (i + 1) r h3 (by omega) hr (fun j ha hb => hf j (by omega) hb)

theorem toksAt_cons_lt {t : PTok} {ts : List PTok} {s : List Char} {i : Nat}
    (h : toksAt (t :: ts) s i = true) : i < s.length := by
  by_contra hlt
  have hge : s.length ≤ i := Nat.le_of_not_lt hlt
  simp only [toksAt, List.getElem?_eq_none hge] at h
  exact Bool.false_ne_true h

theorem matchAt_toksAt {toks : List PTok} {s : List Char} {i : Nat}
    (h : matchAt toks s i = true) : toksAt toks s i = true := by
  simp only [matchAt, Bool.and_eq_true] at h
  exact h.1.2

theorem matchAt_false_of_ge {t : PTok} {ts : List PTok} {s : List Char} {i : Nat}
    (hge : s.length ≤ i) : matchAt (t :: ts) s i = false := by
  cases hm : matchAt (t :: ts) s i with
  | false => rfl
  | true => exact absurd (toksAt_cons_lt (matchAt_toksAt hm)) (Nat.not_lt.mpr hge)

theorem searchPat_some {t : PTok} {ts : List PTok} {s : List Char} {r : Nat}
    (h : searchPat (t :: ts) s = some r) :
    matchAt (t :: ts) s r = true ∧ ∀ j, j < r → matchAt (t :: ts) s j = false := by
  rcases searchFromIdx_eq_some _ _ _ h with ⟨h1, _, h3⟩
  exact ⟨h1, fun j hj => h3 j (Nat.zero_le j) hj⟩

theorem searchPat_none {t : PTok} {ts : List PTok} {s : List Char} :
    searchPat (t :: ts) s = none ↔ ∀ j, matchAt (t :: ts) s j = false := by
  rw [searchPat, searchFromIdx_eq_none]
  constructor
  · intro h j
    rcases Nat.lt_or_ge j (s.length + 1) with hj | hj
    · exact h j (Nat.zero_le j) (by omega)
    · exact matchAt_false_of_ge (by omega)
  · intro h j _ _
    exact h j

theorem searchPat_of_first {t : PTok} {ts : List PTok} {s : List Char} {r : Nat}
    (hm : matchAt (t :: ts) s r = true)
    (hf : ∀ j, j < r → matchAt (t :: ts) s j = false) : searchPat (t :: ts) s = some r := by
  have hr : r < s.length + 1 := by
    have := toksAt_cons_lt (matchAt_toksAt hm)
    omega
  exact searchFromIdx_of_first _ _ _ (Nat.zero_le r) (by omega) hm
    (fun j _ hj => hf j hj)

/-! Theorems settling the claims. -/

/-- C1: evaluation at the failing input. On the store where user 7
holds number 77 assigned at time 100 with TTL 50, the sweep at time 151
(DataStore._release_expired of app.py) releases the record as the claim
requires, but the prior holder still appears in the lease index: the
code clears assigned_to before computing the key of the users entry to
drop, so it looks up str(None) and the entry of user 7 survives. -/
theorem C1_app_release_keeps_lease_index :
    ((app_release_expired 151 50 c1_store).lists
      = [("L", [{ value := "77", status := "available" }])]) ∧
    ((app_release_expired 151 50 c1_store).users
      = [("7", { list := "L", number := "77", assigned_at := 100 })]) := by
  constructor
  · decide
  · decide

/-- C9 (counterexample): DataStore._load of app.py does not fall back
to a default store on unparseable data: with an existing file whose
parse fails, the failure propagates (the constructor raises) instead of
producing the default store. -/
theorem C9_app_load_propagates :
    DataStore_load true ParseOutcome.malformed { lists := [], users := [] }
      = ParseOutcome.malformed ∧
    (ParseOutcome.malformed : ParseOutcome AppState)
      ≠ ParseOutcome.ok { lists := [], users := [] } := by
  constructor
  · rfl
  · decide

/-- C9 (amended): load_json of bot.py and load_data_store of the panel
script fall back to the default on unparseable persisted data, so their
start-up never fails on a corrupt store; DataStore._load of app.py is
the exception and propagates the parse failure. -/
theorem C9_load_fallback {α β : Type} (dflt : α) :
    load_json true ParseOutcome.malformed dflt = dflt ∧
    load_json false ParseOutcome.malformed dflt = dflt ∧
    load_data_store true (ParseOutcome.malformed : ParseOutcome (PDataPartial β))
      = { users := [], number_pools := [], assignments := [], otp_deliveries := [] } := by
  exact ⟨rfl, rfl, rfl⟩

/-- C9 witness: the fallback theorem at concrete instances. -/
theorem C9_load_fallback_witness :
    load_json true ParseOutcome.malformed (0 : Nat) = 0 ∧
    load_json false ParseOutcome.malformed (0 : Nat) = 0 ∧
    load_data_store true (ParseOutcome.malformed : ParseOutcome (PDataPartial Nat))
      = { users := [], number_pools := [], assignments := [], otp_deliveries := [] } :=
  C9_load_fallback (β := Nat) 0

/-- C3: assign_number is idempotent for a requester whose lease-index
entry names a record that is still assigned and carries no OTP: the
call returns that entry and leaves the store unchanged, and so does a
second call. -/
theorem C3_assign_idempotent (uid now now2 : Int) (σ : BotState) (c : Assignment) (n : NumRec)
    (hc : dGet σ.assignments uid = some c)
    (hn : findNumber σ.numbers c.number = some n)
    (hst : n.status = "assigned")
    (hotp : c.last_otp = none) :
    assign_number uid now σ = (some c, σ) ∧
    assign_number uid now2 (assign_number uid now σ).2 = (some c, σ) := by
  have h1 : ∀ t : Int, assign_number uid t σ = (some c, σ) := by
    intro t
    simp [assign_number, hc, hn, hst, hotp]
  refine ⟨h1 now, ?_⟩
  rw [h1 now]
  exact h1 now2

/-- C3 witness: the idempotence theorem applied to the concrete store
where requester 1 holds 15550000001. -/
theorem C3_assign_idempotent_witness :
    assign_number 1 9 c3_store = (some c3_asg, c3_store) ∧
    assign_number 1 11 (assign_number 1 9 c3_store).2 = (some c3_asg, c3_store) :=
  C3_assign_idempotent 1 9 11 c3_store c3_asg c3_rec (by decide) (by decide)
    (by decide) (by decide)

/-- C4: for a requester with no lease-index entry, assign_number hands
out exactly the first available record in pool-insertion order, and
returns none with the store unchanged when nothing is available; and
the concrete sequencing scenario of the claim holds on the pool A, B:
requester 1 gets A, requester 2 gets B, requester 1 again gets A, and a
third requester gets nothing. -/
theorem C4_assign_first_available (uid now : Int) (σ : BotState)
    (hfresh : dGet σ.assignments uid = none) :
    (∀ k (hk : k < σ.numbers.length),
        (σ.numbers.get ⟨k, hk⟩).status = "available" →
        (∀ j (hj : j < σ.numbers.length), j < k →
          (σ.numbers.get ⟨j, hj⟩).status ≠ "available") →
        (assign_number uid now σ).1.map (fun a => a.number)
          = some (σ.numbers.get ⟨k, hk⟩).number) ∧
    ((∀ n ∈ σ.numbers, n.status ≠ "available") → assign_number uid now σ = (none, σ)) ∧
    ((assign_number 1 10 c4_store).1.map (fun a => a.number) = some "A") ∧
    ((assign_number 2 11 (assign_number 1 10 c4_store).2).1.map (fun a => a.number)
      = some "B") ∧
    ((assign_number 1 12 (assign_number 2 11
        (assign_number 1 10 c4_store).2).2).1.map (fun a => a.number) = some "A") ∧
    ((assign_number 3 13 (assign_number 1 12 (assign_number 2 11
        (assign_number 1 10 c4_store).2).2).2).1 = none) := by
  refine ⟨?_, ?_, by decide, by decide, by decide, by decide⟩
  · intro k hk hkav hbefore
    have hfind : σ.numbers.find? (fun n => n.status == "available")
        = some (σ.numbers.get ⟨k, hk⟩) := by
      apply find?_of_first_getElem
      · simpa using hkav
      · intro j hj hjk
        simp only [beq_eq_false_iff_ne]
        exact hbefore j hj hjk
    simp [assign_number, hfresh, freshAssign, hfind]
  · intro hnone
    have hfind : σ.numbers.find? (fun n => n.status == "available") = none := by
      rw [List.find?_eq_none]
      intro x hx
      simp [hnone x hx]
    simp [assign_number, hfresh, freshAssign, hfind]

/-- C4 witness: the selection theorem applied to the concrete A, B pool
with a fresh requester, yielding the first record A. -/
theorem C4_assign_first_available_witness :
    (assign_number 5 20 c4_store).1.map (fun a => a.number) = some "A" := by
  have h := (C4_assign_first_available 5 20 c4_store (by decide)).1 0 (by decide)
    (by decide) (by intro j hj hjk; exact absurd hjk (Nat.not_lt_zero j))
  rw [h]
  decide

/-- C5 (counterexample): with requester 1 holding A and B still
available (both before and after the call), change_number hands A
straight back to requester 1, although A is not the only available
record; the claim forbids returning the just-released number in this
situation. -/
theorem C5_counterexample :
    ((change_number 1 9 c5_store).1.map (fun a => a.number) = some "A") ∧
    (∃ n ∈ c5_store.numbers, n.status = "available" ∧ n.number ≠ "A") ∧
    (∃ n ∈ (change_number 1 9 c5_store).2.numbers,
      n.status = "available" ∧ n.number ≠ "A") := by
  refine ⟨by decide, by decide, by decide⟩

/-- C5 (amended): change_number releases the caller's current record in
place and then selects the first available record of the post-release
pool in pool-insertion order — which may be the number just released,
even when another record is available — and returns none when the
post-release pool has nothing available. -/
theorem C5_change_first_available (uid now : Int) (σ : BotState)
    (hc : (dGet σ.assignments uid).isSome = true) :
    (∀ k (hk : k < (changeReleased uid σ).numbers.length),
        ((changeReleased uid σ).numbers.get ⟨k, hk⟩).status = "available" →
        (∀ j (hj : j < (changeReleased uid σ).numbers.length), j < k →
          ((changeReleased uid σ).numbers.get ⟨j, hj⟩).status ≠ "available") →
        (change_number uid now σ).1.map (fun a => a.number)
          = some ((changeReleased uid σ).numbers.get ⟨k, hk⟩).number) ∧
    ((∀ n ∈ (changeReleased uid σ).numbers, n.status ≠ "available") →
        change_number uid now σ = (none, changeReleased uid σ)) := by
  constructor
  · intro k hk hkav hbefore
    have hfind : (changeReleased uid σ).numbers.find? (fun n => n.status == "available")
        = some ((changeReleased uid σ).numbers.get ⟨k, hk⟩) := by
      apply find?_of_first_getElem
      · simpa using hkav
      · intro j hj hjk
        simp only [beq_eq_false_iff_ne]
        exact hbefore j hj hjk
    simp [change_number, hfind]
  · intro hnone
    have hfind : (changeReleased uid σ).numbers.find? (fun n => n.status == "available")
        = none := by
      rw [List.find?_eq_none]
      intro x hx
      simp [hnone x hx]
    simp [change_number, hfind]

/-- C5 witness: the amended theorem applied to the concrete store where
requester 1 holds A and B is available; the post-release pool has A
first, so the requester receives A again. -/
theorem C5_change_first_available_witness :
    (change_number 1 9 c5_store).1.map (fun a => a.number) = some "A" := by
  have h := (C5_change_first_available 1 9 c5_store (by decide)).1 0 (by decide)
    (by decide) (by intro j hj hjk; exact absurd hjk (Nat.not_lt_zero j))
  rw [h]
  decide

/-- C10: when change_number reports exhaustion for a requester whose
lease-index entry resolves to a record and carries an OTP, the
requester's record has nevertheless already been released to used with
holder and timestamp cleared, while the stale lease-index entry is left
in place, naming a record that is no longer assigned — so the requester
ends the call holding no number, and change is not atomic on failure. -/
theorem C10_change_exhausted (uid now : Int) (σ : BotState) (c : Assignment) (n : NumRec)
    (o : String)
    (hc : dGet σ.assignments uid = some c)
    (ho : c.last_otp = some o)
    (hn : findNumber σ.numbers c.number = some n)
    (hnav : ∀ m ∈ σ.numbers, m.status ≠ "available") :
    (change_number uid now σ).1 = none ∧
    findNumber (change_number uid now σ).2.numbers c.number
      = some { n with status := "used", assigned_to := none, assigned_at := none } ∧
    dGet (change_number uid now σ).2.assignments uid = some c := by
  have hrel : ∀ m : NumRec, changeRelease c m
      = { m with status := "used", assigned_to := none, assigned_at := none } := by
    intro m
    simp [changeRelease, ho]
  have hσr : (changeReleased uid σ).numbers
      = updateNumber c.number (changeRelease c) σ.numbers := by
    simp [changeReleased, hc]
  have hfind : (changeReleased uid σ).numbers.find? (fun m => m.status == "available")
      = none := by
    rw [List.find?_eq_none]
    intro x hx
    rw [hσr] at hx
    rcases mem_updateFirst hx with h1 | ⟨a, _, _, rfl⟩
    · simp [hnav x h1]
    · rw [hrel a]
      simp
  have hasg : (changeReleased uid σ).assignments = σ.assignments := by
    simp [changeReleased, hc]
  refine ⟨?_, ?_, ?_⟩
  · simp [change_number, hfind]
  · have hupd : findNumber (updateNumber c.number (changeRelease c) σ.numbers) c.number
        = some (changeRelease c n) := by
      rw [findNumber_updateNumber (f := changeRelease c) (fun m => rfl), hn, Option.map_some']
    have hfind2 : (updateNumber c.number (changeRelease c) σ.numbers).find?
        (fun m => m.status == "available") = none := by
      rw [← hσr]
      exact hfind
    simp [change_number, hσr, hfind2, hupd, hrel n]
  · simp [change_number, hfind, hasg, hc]

/-- C10 witness: the theorem applied to the one-number store whose only
record is held by requester 1 with an OTP recorded. -/
theorem C10_change_exhausted_witness :
    (change_number 1 9 c10_store).1 = none ∧
    findNumber (change_number 1 9 c10_store).2.numbers "A"
      = some { c10_rec with status := "used", assigned_to := none, assigned_at := none } ∧
    dGet (change_number 1 9 c10_store).2.assignments 1 = some c10_asg :=
  C10_change_exhausted 1 9 c10_store c10_asg c10_rec "1234" (by decide) (by decide)
    (by decide) (by decide)

theorem track_otp_assignments (k : Bool) (num otp svc pnl : String) (now : Int)
    (σ : BotState) :
    (track_otp k num otp svc pnl now σ).2.assignments
      = σ.assignments.map (fun p => if p.2.number == num then
          (p.1, { p.2 with last_otp := some otp, last_otp_at := some now }) else p) := rfl

theorem track_otp_fst_of_lastHolder {σ : BotState} {num : String} {H : Int}
    (h : lastHolder σ.assignments num = some H)
    (k : Bool) (otp svc pnl : String) (now : Int) :
    (track_otp k num otp svc pnl now σ).1 = some H := by
  unfold track_otp
  rw [h]

theorem lastHolder_track_otp (k : Bool) (num otp svc pnl : String) (now : Int)
    (σ : BotState) :
    lastHolder (track_otp k num otp svc pnl now σ).2.assignments num
      = lastHolder σ.assignments num := by
  rw [track_otp_assignments]
  apply lastHolder_map
  · intro p
    dsimp only
    split
    · rfl
    · rfl
  · intro p
    dsimp only
    split
    · rfl
    · rfl

/-- C2 (counterexample): on the store where requester 1 holds A,
delivering an OTP for A returns holder 1 but does not remove the
lease-index entry of requester 1, and a second deliver for A again
returns holder 1, where the claim says the second call must no longer
return that holder. -/
theorem C2_counterexample :
    ((track_otp true "A" "1234" "sv" "pn" 20 c5_store).1 = some 1) ∧
    ((dGet (track_otp true "A" "1234" "sv" "pn" 20 c5_store).2.assignments 1).isSome
      = true) ∧
    ((track_otp true "A" "5678" "sv" "pn" 21
        (track_otp true "A" "1234" "sv" "pn" 20 c5_store).2).1 = some 1) := by
  refine ⟨by decide, by decide, by decide⟩

/-- C2 (amended): deliver (track_otp, under the default keep_used_locked
policy) on a record assigned to holder H returns H and marks the record
used with the OTP time stamped, but the lease-index entry of H is
retained and updated with the OTP rather than removed, so a second
deliver for the same number again returns H. -/
theorem C2_deliver_returns_holder (num otp otp2 svc pnl : String) (now now2 : Int)
    (σ : BotState) (ne : NumRec) (H : Int)
    (hne : findNumber σ.numbers num = some ne)
    (hst : ne.status = "assigned")
    (hto : ne.assigned_to = some H)
    (hH : lastHolder σ.assignments num = some H) :
    ((track_otp true num otp svc pnl now σ).1 = some H) ∧
    (findNumber (track_otp true num otp svc pnl now σ).2.numbers num
      = some { ne with status := "used", last_otp_at := some now }) ∧
    ((track_otp true num otp2 svc pnl now2
        (track_otp true num otp svc pnl now σ).2).1 = some H) := by
  refine ⟨track_otp_fst_of_lastHolder hH true otp svc pnl now, ?_, ?_⟩
  · have hnum : (track_otp true num otp svc pnl now σ).2.numbers
        = updateNumber num
            (fun n => { n with last_otp_at := some now, status := "used" }) σ.numbers := by
      unfold track_otp
      rw [hne]
      rfl
    rw [hnum,
      findNumber_updateNumber
        (f := fun n => { n with last_otp_at := some now, status := "used" })
        (fun m => rfl),
      hne, Option.map_some']
  · apply track_otp_fst_of_lastHolder
    rw [lastHolder_track_otp]
    exact hH

/-- C2 witness: the amended theorem applied to the concrete store where
requester 1 holds A. -/
theorem C2_deliver_returns_holder_witness :
    ((track_otp true "A" "1234" "sv" "pn" 20 c5_store).1 = some 1) ∧
    (findNumber (track_otp true "A" "1234" "sv" "pn" 20 c5_store).2.numbers "A"
      = some { c5_recA with status := "used", last_otp_at := some 20 }) ∧
    ((track_otp true "A" "5678" "sv" "pn" 21
        (track_otp true "A" "1234" "sv" "pn" 20 c5_store).2).1 = some 1) :=
  C2_deliver_returns_holder "A" "1234" "5678" "sv" "pn" 20 21 c5_store c5_recA 1
    (by decide) (by decide) (by decide) (by decide)

theorem recInv_assignFun (uid now : Int) (n : NumRec) :
    recInv { n with
      status := "assigned",
      assigned_to := some uid,
      assigned_at := some now,
      last_otp_at := none } = true := rfl

theorem recInv_clearedHolder (st : String) (n : NumRec) :
    recInv { n with status := st, assigned_to := none, assigned_at := none } = true := by
  simp [recInv]

theorem freshAssign_poolInv (uid now : Int) (σ : BotState) (h : poolInv σ) :
    poolInv (freshAssign uid now σ).2 := by
  unfold freshAssign
  cases hfind : σ.numbers.find? (fun n => n.status == "available") with
  | none => exact h
  | some avail =>
    intro x hx
    rcases mem_updateFirst hx with h1 | ⟨a, ha, _, rfl⟩
    · exact h x h1
    · exact recInv_assignFun uid now a

theorem assign_poolInv (uid now : Int) (σ : BotState) (h : poolInv σ) :
    poolInv (assign_number uid now σ).2 := by
  unfold assign_number
  split
  · split
    · split
      · exact h
      · exact freshAssign_poolInv uid now σ h
    · exact freshAssign_poolInv uid now σ h
  · exact freshAssign_poolInv uid now σ h

theorem changeReleased_poolInv (uid : Int) (σ : BotState) (h : poolInv σ) :
    poolInv (changeReleased uid σ) := by
  unfold changeReleased
  split
  · intro x hx
    rcases mem_updateFirst hx with h1 | ⟨a, ha, _, rfl⟩
    · exact h x h1
    · exact recInv_clearedHolder _ a
  · exact h

theorem change_poolInv (uid now : Int) (σ : BotState) (h : poolInv σ) :
    poolInv (change_number uid now σ).2 := by
  have hr := changeReleased_poolInv uid σ h
  simp only [change_number]
  split
  · exact hr
  · intro x hx
    rcases mem_updateFirst hx with h1 | ⟨a, ha, _, rfl⟩
    · exact hr x h1
    · exact recInv_assignFun uid now a

theorem release_poolInv (number : String) (mu : Bool) (σ : BotState) (h : poolInv σ) :
    poolInv (release_number number mu σ).2 := by
  unfold release_number
  split
  · exact h
  · intro x hx
    rcases mem_updateFirst hx with h1 | ⟨a, ha, _, rfl⟩
    · exact h x h1
    · exact recInv_clearedHolder _ a

theorem block_poolInv (number : String) (σ : BotState) (h : poolInv σ) :
    poolInv (block_number number σ).2 := by
  unfold block_number
  split
  · exact h
  · intro x hx
    rcases mem_updateFirst hx with h1 | ⟨a, ha, _, rfl⟩
    · exact h x h1
    · exact recInv_clearedHolder _ a

theorem relExpStep_recInv (now ttl : Int) (n : NumRec) (asg : List (Int × Assignment))
    (h : recInv n = true) : recInv (relExpStep now ttl n asg).1 = true := by
  unfold relExpStep
  split
  · split
    · split
      · exact recInv_clearedHolder _ n
      · exact h
    · exact h
  · exact h

theorem relExpGo_poolInv (now ttl : Int) :
    ∀ (ns : List NumRec) (asg : List (Int × Assignment)),
      (∀ n ∈ ns, recInv n = true) →
      ∀ x ∈ (relExpGo now ttl ns asg).1, recInv x = true := by
  intro ns
  induction ns with
  | nil =>
    intro asg h x hx
    simp [relExpGo] at hx
  | cons n ns ih =>
    intro asg h x hx
    have hx2 : x ∈ (relExpStep now ttl n asg).1 ::
        (relExpGo now ttl ns (relExpStep now ttl n asg).2.2).1 := hx
    rcases List.mem_cons.mp hx2 with h1 | h2
    · rw [h1]
      exact relExpStep_recInv now ttl n asg (h n (List.mem_cons_self n ns))
    · exact ih _ (fun m hm => h m (List.mem_cons_of_mem n hm)) x h2

theorem release_expired_poolInv (now ttl : Int) (σ : BotState) (h : poolInv σ) :
    poolInv (release_expired now ttl σ).2 := by
  intro x hx
  exact relExpGo_poolInv now ttl σ.numbers σ.assignments h x hx

/-- C6 (counterexample): deliver breaks the record invariant: on a pool
satisfying it, an OTP delivered for the assigned record A leaves that
record with status used while still carrying its holder and assignment
timestamp, where the claim requires a used record to carry neither. -/
theorem C6_counterexample :
    poolInv c5_store ∧
    ¬ poolInv (track_otp true "A" "123456" "sv" "pn" 20 c5_store).2 := by
  constructor
  · decide
  · decide

/-- C6 (amended): the record invariant — holder and timestamp both
present or both absent, and both absent unless the status is assigned —
is preserved by assign, change, release, reclaim-expired and block;
deliver (track_otp) is the exception: it marks the record used without
clearing holder and timestamp. -/
theorem C6_invariant_preservation (σ : BotState) (h : poolInv σ) :
    (∀ uid now : Int, poolInv (assign_number uid now σ).2) ∧
    (∀ uid now : Int, poolInv (change_number uid now σ).2) ∧
    (∀ (number : String) (mu : Bool), poolInv (release_number number mu σ).2) ∧
    (∀ now ttl : Int, poolInv (release_expired now ttl σ).2) ∧
    (∀ number : String, poolInv (block_number number σ).2) :=
  ⟨fun uid now => assign_poolInv uid now σ h,
   fun uid now => change_poolInv uid now σ h,
   fun number mu => release_poolInv number mu σ h,
   fun now ttl => release_expired_poolInv now ttl σ h,
   fun number => block_poolInv number σ h⟩

/-- C6 witness: preservation applied to the concrete store where
requester 1 holds A, for an assign call by requester 2. -/
theorem C6_invariant_preservation_witness :
    poolInv (assign_number 2 30 c5_store).2 :=
  (C6_invariant_preservation c5_store (by decide)).1 2 30

theorem searchPat_some_ne {toks : List PTok} {s : List Char} {r : Nat} (ht : toks ≠ [])
    (h : searchPat toks s = some r) :
    matchAt toks s r = true ∧ ∀ j, j < r → matchAt toks s j = false := by
  cases toks with
  | nil => exact absurd rfl ht
  | cons t ts => exact searchPat_some h

theorem searchPat_none_ne {toks : List PTok} {s : List Char} (ht : toks ≠ []) :
    searchPat toks s = none ↔ ∀ j, matchAt toks s j = false := by
  cases toks with
  | nil => exact absurd rfl ht
  | cons t ts => exact searchPat_none

theorem searchPat_of_first_ne {toks : List PTok} {s : List Char} {r : Nat} (ht : toks ≠ [])
    (hm : matchAt toks s r = true)
    (hf : ∀ j, j < r → matchAt toks s j = false) : searchPat toks s = some r := by
  cases toks with
  | nil => exact absurd rfl ht
  | cons t ts => exact searchPat_of_first hm hf

theorem pat6_length : pat6.length = 6 := rfl

theorem pat4_length : pat4.length = 4 := rfl

theorem pat33_length : pat33.length = 7 := rfl

theorem pat8_length : pat8.length = 8 := rfl

theorem extractGo_eq_none {s : List Char} :
    ∀ ps : List (List PTok), extractGo s ps = none ↔ ∀ p ∈ ps, searchPat p s = none := by
  intro ps
  induction ps with
  | nil => simp [extractGo]
  | cons p ps ih =>
    cases hp : searchPat p s with
    | some i => simp [extractGo, hp]
    | none => simp [extractGo, hp, ih]

/-- C7 (counterexample): on the message 12345678 none of the three
patterns named by the claim matches as six, four, or three-hyphen-three
contiguous digits read off the message in the claim's own terms (the
spec-side extraction yields the six leading digits 123456), yet bot.py's
extract_otp returns the whole 12345678 through its fourth, eight-digit
pattern; and on a1234b the claim's four-contiguous-digit reading yields
1234 while extract_otp returns none because its patterns are
word-bounded. -/
theorem C7_counterexample :
    extract_otp "12345678" = some "12345678" ∧
    spec_extract "12345678" = some "123456" ∧
    extract_otp "a1234b" = none ∧
    spec_extract "a1234b" = some "1234" := by
  refine ⟨by decide, by decide, by decide, by decide⟩

/-- C7 (amended): extract_otp of bot.py applies an ordered list of four
word-bounded patterns with the leftmost match of the first matching
pattern winning — six digits, then four digits, then
three-digits-hyphen-three-digits with the hyphen stripped from the
returned code, then eight digits — and returns none exactly when none
of the four patterns matches anywhere in the message. -/
theorem C7_extract_first_match (message : String) :
    (extract_otp message = none ↔
      ∀ i, matchAt pat6 message.data i = false ∧ matchAt pat4 message.data i = false ∧
           matchAt pat33 message.data i = false ∧ matchAt pat8 message.data i = false) ∧
    (∀ i, matchAt pat6 message.data i = true →
      (∀ j, j < i → matchAt pat6 message.data j = false) →
      extract_otp message = some (stripDash (groupAt message.data i 6))) ∧
    ((∀ i, matchAt pat6 message.data i = false) →
      ∀ i, matchAt pat4 message.data i = true →
      (∀ j, j < i → matchAt pat4 message.data j = false) →
      extract_otp message = some (stripDash (groupAt message.data i 4))) ∧
    ((∀ i, matchAt pat6 message.data i = false) →
      (∀ i, matchAt pat4 message.data i = false) →
      ∀ i, matchAt pat33 message.data i = true →
      (∀ j, j < i → matchAt pat33 message.data j = false) →
      extract_otp message = some (stripDash (groupAt message.data i 7))) ∧
    ((∀ i, matchAt pat6 message.data i = false) →
      (∀ i, matchAt pat4 message.data i = false) →
      (∀ i, matchAt pat33 message.data i = false) →
      ∀ i, matchAt pat8 message.data i = true →
      (∀ j, j < i → matchAt pat8 message.data j = false) →
      extract_otp message = some (stripDash (groupAt message.data i 8))) := by
  refine ⟨?_, ?_, ?_, ?_, ?_⟩
  · constructor
    · intro h i
      have h' : extractGo message.data [pat6, pat4, pat33, pat8] = none := h
      have hall := (extractGo_eq_none _).mp h'
      exact ⟨((searchPat_none_ne (by decide)).mp (hall pat6 (by simp))) i,
             ((searchPat_none_ne (by decide)).mp (hall pat4 (by simp))) i,
             ((searchPat_none_ne (by decide)).mp (hall pat33 (by simp))) i,
             ((searchPat_none_ne (by decide)).mp (hall pat8 (by simp))) i⟩
    · intro h
      show extractGo message.data [pat6, pat4, pat33, pat8] = none
      apply (extractGo_eq_none _).mpr
      intro p hp
      simp only [List.mem_cons, List.not_mem_nil, or_false] at hp
      rcases hp with rfl | rfl | rfl | rfl
      · exact (searchPat_none_ne (by decide)).mpr (fun i => (h i).1)
      · exact (searchPat_none_ne (by decide)).mpr (fun i => (h i).2.1)
      · exact (searchPat_none_ne (by decide)).mpr (fun i => (h i).2.2.1)
      · exact (searchPat_none_ne (by decide)).mpr (fun i => (h i).2.2.2)
  · intro i hi hfirst
    have hs : searchPat pat6 message.data = some i :=
      searchPat_of_first_ne (by decide) hi hfirst
    simp [extract_otp, extractGo, hs, pat6_length]
  · intro h6 i hi hfirst
    have hs6 : searchPat pat6 message.data = none := (searchPat_none_ne (by decide)).mpr h6
    have hs : searchPat pat4 message.data = some i :=
      searchPat_of_first_ne (by decide) hi hfirst
    simp [extract_otp, extractGo, hs6, hs, pat4_length]
  · intro h6 h4 i hi hfirst
    have hs6 : searchPat pat6 message.data = none := (searchPat_none_ne (by decide)).mpr h6
    have hs4 : searchPat pat4 message.data = none := (searchPat_none_ne (by decide)).mpr h4
    have hs : searchPat pat33 message.data = some i :=
      searchPat_of_first_ne (by decide) hi hfirst
    simp [extract_otp, extractGo, hs6, hs4, hs, pat33_length]
  · intro h6 h4 h33 i hi hfirst
    have hs6 : searchPat pat6 message.data = none := (searchPat_none_ne (by decide)).mpr h6
    have hs4 : searchPat pat4 message.data = none := (searchPat_none_ne (by decide)).mpr h4
    have hs33 : searchPat pat33 message.data = none :=
      (searchPat_none_ne (by decide)).mpr h33
    have hs : searchPat pat8 message.data = some i :=
      searchPat_of_first_ne (by decide) hi hfirst
    simp [extract_otp, extractGo, hs6, hs4, hs33, hs, pat8_length]

/-- C7 witness: the characterization applied to a concrete message with
a six-digit code at position 5. -/
theorem C7_extract_first_match_witness :
    extract_otp "code 482913 now" = some "482913" := by
  have h := (C7_extract_first_match "code 482913 now").2.1 5 (by decide) (by decide)
  rw [h]
  decide

/-- C8: delivering an OTP for a number outside the managed pool is
harmless in both implementations: DataStore.deliver_otp of app.py
returns no holder and leaves the store untouched, and
StateManager.track_otp of bot.py returns no holder and mutates neither
the pool nor the lease index (it only appends a history event). -/
theorem C8_unknown_number (σa : AppState) (σb : BotState)
    (num otp src svc pnl : String) (now : Int)
    (ha : findInLists σa.lists (normalizeApp num) = none)
    (hb1 : findNumber σb.numbers num = none)
    (hb2 : ∀ p ∈ σb.assignments, (p.2.number == num) = false) :
    deliver_otp num otp src now σa = (none, σa) ∧
    (track_otp true num otp svc pnl now σb).1 = none ∧
    (track_otp true num otp svc pnl now σb).2.numbers = σb.numbers ∧
    (track_otp true num otp svc pnl now σb).2.assignments = σb.assignments := by
  refine ⟨?_, ?_, ?_, ?_⟩
  · simp [deliver_otp, ha]
  · unfold track_otp
    rw [hb1, lastHolder_eq_none hb2]
  · unfold track_otp
    rw [hb1]
  · rw [track_otp_assignments]
    apply map_eq_self
    intro p hp
    simp [hb2 p hp]

/-- C8 witness: an OTP reported for the number 999, which neither store
manages. -/
theorem C8_unknown_number_witness :
    deliver_otp "999" "1234" "manual" 99
        { lists := [("L", [{ value := "77" }])], users := [] }
      = (none, { lists := [("L", [{ value := "77" }])], users := [] }) ∧
    (track_otp true "999" "1234" "sv" "pn" 99 c5_store).1 = none ∧
    (track_otp true "999" "1234" "sv" "pn" 99 c5_store).2.numbers = c5_store.numbers ∧
    (track_otp true "999" "1234" "sv" "pn" 99 c5_store).2.assignments
      = c5_store.assignments :=
  C8_unknown_number { lists := [("L", [{ value := "77" }])], users := [] } c5_store
    "999" "1234" "manual" "sv" "pn" 99 (by decide) (by decide) (by decide)

end OtpLease
